import Mathlib

/-!
Verification of the representation-conversion (superop_reps.py) and
tensor-composition (tensor.py) core of the quantum-object library.

The quantum-object record, error values and the two modules' functions are
shallowly embedded below.  Matrix data is modelled as a function on natural
row/column indices together with an explicit shape, over an arbitrary field
with a star operation (instantiated at the rationals for concrete
evaluations and at the reals for the real-parameter statements); numpy
arrays and scipy sparse matrices in the source both denote such matrices.
Python duck-typed `type` and `superrep` string tags are kept as strings.
Raised Python exceptions become `Except.error` results carrying the
exception class; a Python function that falls off its end (returning
`None`) is modelled by an `Option` payload of `none`.
-/

/-- Python exception classes raised by the embedded code, with the message
(format braces and quotes of the source messages elided; messages are only
compared with each other, never parsed). -/
inductive PyErr where
  | typeError (msg : String)
  | indexError (msg : String)
  | attributeError (msg : String)
deriving DecidableEq

/-- The external quantum-object record (`Qobj`) as consumed by this core:
matrix `data` with an explicit `shape`, block-structure `dims` (output and
input factor lists), the duck-typed kind tag `qtype`, the representation
tag `superrep` (meaningful only for super-operators), and the cached
tri-state hermiticity flag `isherm` (`none` is the unknown state). -/
structure Qobj (α : Type) where
  qtype : String
  superrep : String
  dims : List Nat × List Nat
  shape : Nat × Nat
  data : Nat → Nat → α
  isherm : Option Bool

/-- Attribute `Qobj.issuper` of the external object model. -/
def Qobj.issuper {α : Type} (q : Qobj α) : Bool := q.qtype == "super"

/-- Attribute `Qobj.isoper` of the external object model. -/
def Qobj.isoper {α : Type} (q : Qobj α) : Bool := q.qtype == "oper"

/-- Attribute `Qobj.isket` of the external object model. -/
def Qobj.isket {α : Type} (q : Qobj α) : Bool := q.qtype == "ket"

/-- Attribute `Qobj.isbra` of the external object model. -/
def Qobj.isbra {α : Type} (q : Qobj α) : Bool := q.qtype == "bra"

/-- Attribute `Qobj.isoperket` of the external object model. -/
def Qobj.isoperket {α : Type} (q : Qobj α) : Bool := q.qtype == "operator-ket"

/-- Attribute `Qobj.isoperbra` of the external object model. -/
def Qobj.isoperbra {α : Type} (q : Qobj α) : Bool := q.qtype == "operator-bra"

/-- Kind map of the adjoint: kets and bras (plain or vectorized) swap, the
other kinds are unchanged. -/
def dagType : String → String
  | "ket" => "bra"
  | "bra" => "ket"
  | "operator-ket" => "operator-bra"
  | "operator-bra" => "operator-ket"
  | t => t

/-- Modelled from the spec: the external adjoint `Qobj.dag` (conjugate
transpose of the data, swapped dims and shape, swapped ket/bra kinds;
hermiticity is invariant under the adjoint). -/
def Qobj.dag {α : Type} [Star α] (q : Qobj α) : Qobj α :=
  { qtype := dagType q.qtype
    superrep := q.superrep
    dims := (q.dims.2, q.dims.1)
    shape := (q.shape.2, q.shape.1)
    data := fun i j => star (q.data j i)
    isherm := q.isherm }

/-- Auxiliary countdown for `introot`: the largest `d ≤ fuel` with
`d * d ≤ n` (zero if none). -/
def introotAux (n : Nat) : Nat → Nat
  | 0 => 0
  | d + 1 => if (d + 1) * (d + 1) ≤ n then d + 1 else introotAux n d

/-- Integer square root, standing for the source's `sqrt(data.shape[0])`:
exact on the perfect-square row counts that super-operator data has.
Defined by structural recursion so that it evaluates definitionally. -/
def introot (n : Nat) : Nat := introotAux n n

/-- Row-major reinterpretation of a d²×d² matrix as a 4-index (d,d,d,d)
tensor (`data.reshape([sqrt_shape] * 4)` in the source). -/
def reshape4 {α : Type} (d : Nat) (M : Nat → Nat → α) : Nat → Nat → Nat → Nat → α :=
  fun i j k l => M (i * d + j) (k * d + l)

/-- The fixed axis permutation `transpose(3, 1, 2, 0)` of the source: axes 0
and 3 are swapped (the permutation is its own inverse, so the two numpy
axis-permutation conventions coincide). -/
def transpose3120 {α : Type} (T : Nat → Nat → Nat → Nat → α) : Nat → Nat → Nat → Nat → α :=
  fun i0 i1 i2 i3 => T i3 i1 i2 i0

/-- Row-major flattening of a 4-index (d,d,d,d) tensor back to a d²×d²
matrix (the final `.reshape(q_oper.data.shape)` of the source). -/
def flatten4 {α : Type} (d : Nat) (T : Nat → Nat → Nat → Nat → α) : Nat → Nat → α :=
  fun r c => T (r / d) (r % d) (c / d) (c % d)

/-- The private Super⇄Choi basis transform `_super_tofrom_choi` of
superop_reps.py: with d the square root of the row count, reshape the data
row-major to (d,d,d,d), permute the axes by (3,1,2,0), and flatten back;
dims are carried over unchanged.  The freshly constructed object is
classified by the external constructor from its (super-operator) dims —
modelled from the spec as kind super-operator with the default Super tag
and unknown hermiticity; every caller immediately overwrites the
representation tag. -/
def _super_tofrom_choi {α : Type} (q : Qobj α) : Qobj α :=
  { qtype := "super"
    superrep := "super"
    dims := q.dims
    shape := q.shape
    data := flatten4 (introot q.shape.1) (transpose3120 (reshape4 (introot q.shape.1) q.data))
    isherm := none }

/-- `super_to_choi` of superop_reps.py: the basis transform, retagged Choi. -/
def super_to_choi {α : Type} (q : Qobj α) : Qobj α :=
  { _super_tofrom_choi q with superrep := "choi" }

/-- `choi_to_super` of superop_reps.py: `super_to_choi` retagged Super. -/
def choi_to_super {α : Type} (q : Qobj α) : Qobj α :=
  { super_to_choi q with superrep := "super" }

/-- `_dep_super` of superop_reps.py: the qubit depolarizing channel with
parameter `pe` in the Super (Liouville) representation. -/
def _dep_super {α : Type} [Field α] (pe : α) : Qobj α :=
  { qtype := "super"
    superrep := "super"
    dims := ([2, 2], [2, 2])
    shape := (4, 4)
    data := fun i j =>
      match i, j with
      | 0, 0 => 1 - pe / 2
      | 0, 3 => pe / 2
      | 1, 1 => 1 - pe
      | 2, 2 => 1 - pe
      | 3, 0 => pe / 2
      | 3, 3 => 1 - pe / 2
      | _, _ => 0
    isherm := none }

/-- `_dep_choi` of superop_reps.py: the qubit depolarizing channel with
parameter `pe` in the Choi representation (the reference fixture). -/
def _dep_choi {α : Type} [Field α] (pe : α) : Qobj α :=
  { qtype := "super"
    superrep := "super"
    dims := ([2, 2], [2, 2])
    shape := (4, 4)
    data := fun i j =>
      match i, j with
      | 0, 0 => 1 - pe / 2
      | 0, 3 => 1 - pe
      | 1, 1 => pe / 2
      | 2, 2 => pe / 2
      | 3, 0 => 1 - pe
      | 3, 3 => 1 - pe / 2
      | _, _ => 0
    isherm := none }

/-- C1: for every parameter pe (in any field, hence for every real pe), the
Super-to-Choi core transform — row-major reshape to (d,d,d,d), axis
permutation (3,1,2,0), flatten — applied to the qubit depolarizing Super
matrix yields exactly the reference depolarizing Choi matrix, entry by
entry on the 4×4 range, with dims and shape preserved. -/
theorem c1_dep_super_transforms_to_dep_choi {α : Type} [Field α] (pe : α) (i j : Fin 4) :
    (_super_tofrom_choi (_dep_super pe)).data i.val j.val = (_dep_choi pe).data i.val j.val ∧
    (_super_tofrom_choi (_dep_super pe)).dims = (_dep_choi pe).dims ∧
    (_super_tofrom_choi (_dep_super pe)).shape = (_dep_choi pe).shape := by
  refine ⟨?_, rfl, rfl⟩
  fin_cases i <;> fin_cases j <;>
    simp [_super_tofrom_choi, _dep_super, _dep_choi, flatten4, transpose3120, reshape4,
      introot, introotAux]

/-- The identity matrix, used by the external superoperator builders. -/
def eye {α : Type} [Field α] : Nat → Nat → α :=
  fun i j => if i = j then 1 else 0

/-- Kronecker product of matrix data (`sp.kron` in the source): with the
right factor of shape `shB`, entry (i, j) is
`A (i / shB.1) (j / shB.2) * B (i % shB.1) (j % shB.2)`. -/
def kronData {α : Type} [Field α] (A : Nat → Nat → α) (shB : Nat × Nat)
    (B : Nat → Nat → α) : Nat → Nat → α :=
  fun i j => A (i / shB.1) (j / shB.2) * B (i % shB.1) (j % shB.2)

/-- Modelled from the spec: the external `Qobj` multiplication operator, as
used by this core only on the product `spre(U) * spost(U.dag())` of two
superoperator-shaped factors; the external object model classifies that
product as a super-operator with the default Super tag and unknown cached
hermiticity. -/
def qmul {α : Type} [Field α] (a b : Qobj α) : Qobj α :=
  { qtype := "super"
    superrep := "super"
    dims := (a.dims.1, b.dims.2)
    shape := (a.shape.1, b.shape.2)
    data := fun i j => Finset.sum (Finset.range a.shape.2) (fun k => a.data i k * b.data k j)
    isherm := none }

/-- Modelled from the spec: the external left-multiplication superoperator
builder `spre` under the column-stacking vectorization of the glossary
(`vec(A X) = (I ⊗ A) vec(X)`), yielding a Super-tagged super-operator. -/
def spre {α : Type} [Field α] (q : Qobj α) : Qobj α :=
  { qtype := "super"
    superrep := "super"
    dims := (q.dims.1 ++ q.dims.1, q.dims.2 ++ q.dims.2)
    shape := (q.shape.1 * q.shape.1, q.shape.2 * q.shape.2)
    data := kronData eye q.shape q.data
    isherm := none }

/-- Modelled from the spec: the external right-multiplication superoperator
builder `spost` under the column-stacking vectorization of the glossary
(`vec(X B) = (Bᵀ ⊗ I) vec(X)`), yielding a Super-tagged super-operator. -/
def spost {α : Type} [Field α] (q : Qobj α) : Qobj α :=
  { qtype := "super"
    superrep := "super"
    dims := (q.dims.1 ++ q.dims.1, q.dims.2 ++ q.dims.2)
    shape := (q.shape.1 * q.shape.1, q.shape.2 * q.shape.2)
    data := kronData (fun i j => q.data j i) q.shape eye
    isherm := none }

/-- The dispatch function `to_choi` of superop_reps.py.  An `Except.error`
is a raised exception; the payload is the returned object.  On a kind that
is neither super-operator nor operator, the raise statement formats
`"... superrep = \x7b0.choi\x7d ..."`; the external object (per the
spec's attribute list: data, dims, kind, representation, hermiticity flag)
has no attribute `choi`, so evaluating the format string raises an
attribute error before the intended TypeError is constructed. -/
def to_choi {α : Type} [Field α] [StarRing α] (q : Qobj α) : Except PyErr (Option (Qobj α)) :=
  if q.qtype = "super" then
    if q.superrep = "choi" then .ok (some q)
    else if q.superrep = "super" then .ok (some (super_to_choi q))
    else .error (.typeError q.superrep)
  else if q.qtype = "oper" then
    .ok (some (super_to_choi (qmul (spre q) (spost q.dag))))
  else
    .error (.attributeError "choi")

/-- The dispatch function `to_super` of superop_reps.py.  The inner branch
on `superrep` has no `else`: for a super-operator with an unrecognized
representation tag the function falls off its end and returns None,
modelled by the payload `none`. -/
def to_super {α : Type} [Field α] [StarRing α] (q : Qobj α) : Except PyErr (Option (Qobj α)) :=
  if q.qtype = "super" then
    if q.superrep = "super" then .ok (some q)
    else if q.superrep = "choi" then .ok (some (choi_to_super q))
    else .ok none
  else if q.qtype = "oper" then
    .ok (some (qmul (spre q) (spost q.dag)))
  else
    .error (.typeError "Conversion of Qobj to supermatrix not supported for this type and superrep")

/-- The dispatch function `to_kraus` of superop_reps.py, parametrized by
the Choi-to-Kraus extraction `choi_to_kraus` (an external numerically
sensitive eigendecomposition, outside this exact embedding; no claim
depends on its values).  The source's Super branch recurses as
`to_kraus(to_choi(q))`; `to_choi` on a Super-tagged map returns
`super_to_choi q`, a Choi-tagged map, so the recursion is unrolled here to
the Choi branch.  Like `to_super`, the inner branch has no `else` and
returns None on an unrecognized representation tag. -/
def to_kraus {α : Type} [Field α] (choi_to_kraus : Qobj α → List (Qobj α)) (q : Qobj α) :
    Except PyErr (Option (List (Qobj α))) :=
  if q.qtype = "super" then
    if q.superrep = "super" then .ok (some (choi_to_kraus (super_to_choi q)))
    else if q.superrep = "choi" then .ok (some (choi_to_kraus q))
    else .ok none
  else if q.qtype = "oper" then
    .ok (some [q])
  else
    .error (.typeError "Conversion of Qobj to Kraus decomposition not supported for this type and superrep")

/-- Applying a second dispatch function to the Python return value of a
first: a raised exception propagates, and a returned None faults with an
attribute error as soon as the callee reads `.type` on it. -/
def applyOpt {α : Type} (r : Except PyErr (Option (Qobj α)))
    (f : Qobj α → Except PyErr (Option (Qobj α))) : Except PyErr (Option (Qobj α)) :=
  match r with
  | .error e => .error e
  | .ok none => .error (.attributeError "type")
  | .ok (some q) => f q

/-- Python's truthiness-based `and` on the tri-state hermiticity flag
(`out.isherm and q.isherm` in the source): a true left operand yields the
right operand; a falsy left operand (false or unknown) short-circuits. -/
def pyAnd : Option Bool → Option Bool → Option Bool
  | some true, y => y
  | some false, _ => some false
  | none, _ => none

/-- Python's truthiness-based `not` on the tri-state flag
(`not out.isherm` in the source): false and unknown are both falsy. -/
def pyNot : Option Bool → Bool
  | some true => false
  | _ => true

/-- The body of the accumulation loop of `tensor` in tensor.py: Kronecker
the data, multiply the shapes, concatenate the dims factor-wise, and fold
the hermiticity flags with Python `and`. -/
def tensorStep {α : Type} [Field α] (acc q : Qobj α) : Qobj α :=
  { acc with
    data := kronData acc.data q.shape q.data
    shape := (acc.shape.1 * q.shape.1, acc.shape.2 * q.shape.2)
    dims := (acc.dims.1 ++ q.dims.1, acc.dims.2 ++ q.dims.2)
    isherm := pyAnd acc.isherm q.isherm }

/-- `tensor` of tensor.py on its normalized operand list (the variadic and
single-sequence calling forms both produce this list; the non-`Qobj`
operand check is unrepresentable in the typed embedding).  An empty list
raises the zero-operand TypeError; if the first operand is a super-operator
all operands must carry its representation tag.  The loop starts from a
fresh object (kind classified externally from the dims — for the
homogeneous operand lists of this core that is the first operand's kind;
a fresh object's representation tag defaults to Super and is overwritten
from the first operand when that operand is a super-operator) and ends
with `if not out.isherm: out._isherm = None`, resetting a falsy flag to
unknown.  The source's final global-flag-controlled `tidyup` pass is an
external floating-point cleanup with no exact-arithmetic counterpart,
modelled from the spec as disabled. -/
def tensor {α : Type} [Field α] (qlist : List (Qobj α)) : Except PyErr (Qobj α) :=
  match qlist with
  | [] => .error (.typeError "Requires at least one input argument")
  | q0 :: rest =>
    if q0.issuper && !((q0 :: rest).all fun q => q.superrep == q0.superrep) then
      .error (.typeError "In tensor products of superroperators, all musthave the same representation")
    else
      let start : Qobj α :=
        { qtype := q0.qtype
          superrep := q0.superrep
          dims := q0.dims
          shape := q0.shape
          data := q0.data
          isherm := pyAnd (some true) q0.isherm }
      let out := rest.foldl tensorStep start
      .ok (if pyNot out.isherm then { out with isherm := none } else out)

/-- The non-operator-bra body of `super_tensor` of tensor.py: super and
operator-ket operands are individually reshuffled, tensored, and the
aggregate reshuffled once more (the Super branch restores the first
operand's representation tag); heterogeneous kinds raise.  The external
reshuffle primitive is a parameter.  Indexing `args[0]` on an empty
argument tuple raises IndexError. -/
def super_tensor_core {α : Type} [Field α] (reshuffle : Qobj α → Qobj α)
    (args : List (Qobj α)) : Except PyErr (Qobj α) :=
  match args with
  | [] => .error (.indexError "tuple index out of range")
  | a :: rest =>
    if (a :: rest).all Qobj.issuper then
      if !((a :: rest).all fun q => q.superrep == "super") then
        .error (.typeError "super_tensor on type=super is only implemented for superrep=super")
      else
        match tensor ((a :: rest).map reshuffle) with
        | .error e => .error e
        | .ok t => .ok { reshuffle t with superrep := a.superrep }
    else if (a :: rest).all Qobj.isoperket then
      match tensor ((a :: rest).map reshuffle) with
      | .error e => .error e
      | .ok t => .ok (reshuffle t)
    else
      .error (.typeError "All arguments must be the same type, either super, operator-ket or operator-bra")

/-- `super_tensor` of tensor.py.  The operator-bra branch of the source
recurses on the adjoints of the operands and adjoints the result; the
adjoint of an operator-bra is an operator-ket, so the recursive call always
lands in a non-bra branch and is `super_tensor_core`. -/
def super_tensor {α : Type} [Field α] [StarRing α] (reshuffle : Qobj α → Qobj α)
    (args : List (Qobj α)) : Except PyErr (Qobj α) :=
  match args with
  | [] => .error (.indexError "tuple index out of range")
  | a :: rest =>
    if (a :: rest).all Qobj.issuper then
      if !((a :: rest).all fun q => q.superrep == "super") then
        .error (.typeError "super_tensor on type=super is only implemented for superrep=super")
      else
        match tensor ((a :: rest).map reshuffle) with
        | .error e => .error e
        | .ok t => .ok { reshuffle t with superrep := a.superrep }
    else if (a :: rest).all Qobj.isoperket then
      match tensor ((a :: rest).map reshuffle) with
      | .error e => .error e
      | .ok t => .ok (reshuffle t)
    else if (a :: rest).all Qobj.isoperbra then
      (super_tensor_core reshuffle ((a :: rest).map Qobj.dag)).map Qobj.dag
    else
      .error (.typeError "All arguments must be the same type, either super, operator-ket or operator-bra")

/-- Predicate `_isoperlike` of tensor.py. -/
def _isoperlike {α : Type} (q : Qobj α) : Bool := q.isoper || q.issuper

/-- Predicate `_isketlike` of tensor.py. -/
def _isketlike {α : Type} (q : Qobj α) : Bool := q.isket || q.isoperket

/-- Predicate `_isbralike` of tensor.py. -/
def _isbralike {α : Type} (q : Qobj α) : Bool := q.isbra || q.isoperbra

/-- Modelled from the spec: the external ket-to-density-operator projector
(`ket2dm`), the outer product of a ket with its adjoint. -/
def ket2dm {α : Type} [Field α] [StarRing α] (k : Qobj α) : Qobj α :=
  { qtype := "oper"
    superrep := "super"
    dims := (k.dims.1, k.dims.1)
    shape := (k.shape.1, k.shape.1)
    data := fun i j => k.data i 0 * star (k.data j 0)
    isherm := some true }

/-- Modelled from the spec: the external column-stacking vectorization
(`operator_to_vector`) turning a d×d operator into an operator-ket. -/
def operator_to_vector {α : Type} (q : Qobj α) : Qobj α :=
  { qtype := "operator-ket"
    superrep := "super"
    dims := (q.dims.1 ++ q.dims.2, [1])
    shape := (q.shape.1 * q.shape.2, 1)
    data := fun i _ => q.data (i % q.shape.1) (i / q.shape.1)
    isherm := none }

/-- The promotion `map(to_super, args)` inside `composite`: the Python call
returns the object payload; an exception propagates; a returned None is
passed on to `super_tensor`, which faults with an attribute error at its
first attribute read on it. -/
def promoteSuper {α : Type} [Field α] [StarRing α] (q : Qobj α) : Except PyErr (Qobj α) :=
  match to_super q with
  | .error e => .error e
  | .ok (some v) => .ok v
  | .ok none => .error (.attributeError "issuper")

/-- The non-bra body of `composite` of tensor.py: operator-like operand
lists with at least one super-operator are promoted elementwise via
`to_super` and handed to `super_tensor`; all-plain-operator lists go to
`tensor`; ket-like lists with at least one operator-ket promote plain kets
by `operator_to_vector(ket2dm(arg))`; heterogeneous kinds raise. -/
def composite_core {α : Type} [Field α] [StarRing α] (reshuffle : Qobj α → Qobj α)
    (args : List (Qobj α)) : Except PyErr (Qobj α) :=
  if args.all _isoperlike then
    if args.any Qobj.issuper then
      match args.mapM promoteSuper with
      | .error e => .error e
      | .ok promoted => super_tensor reshuffle promoted
    else tensor args
  else if args.all _isketlike then
    if args.any Qobj.isoperket then
      super_tensor reshuffle
        (args.map fun a => if a.isoperket then a else operator_to_vector (ket2dm a))
    else tensor args
  else
    .error (.typeError "Unsupported Qobj types")

/-- `composite` of tensor.py.  The bra-like branch of the source recurses
on the adjoints and adjoints the result; the adjoints of bra-like operands
are ket-like, so the recursion always lands in a non-bra branch and is
`composite_core`.  An empty operand list is vacuously all-operator-like in
the source and reaches `tensor()` (the non-`Qobj` operand check is
unrepresentable in the typed embedding). -/
def composite {α : Type} [Field α] [StarRing α] (reshuffle : Qobj α → Qobj α)
    (args : List (Qobj α)) : Except PyErr (Qobj α) :=
  if !(args.all _isoperlike) && !(args.all _isketlike) && args.all _isbralike then
    (composite_core reshuffle (args.map Qobj.dag)).map Qobj.dag
  else
    composite_core reshuffle args

/-- On an input lying between d² and (d+1)², the countdown returns d. -/
lemma introotAux_eq (n d : Nat) (h2 : d * d ≤ n) (h3 : n < (d + 1) * (d + 1)) :
    ∀ fuel, d ≤ fuel → introotAux n fuel = d := by
  intro fuel
  induction fuel with
  | zero =>
    intro h1
    have hd0 : d = 0 := Nat.le_zero.mp h1
    subst hd0
    rfl
  | succ f ih =>
    intro h1
    simp only [introotAux]
    by_cases hc : (f + 1) * (f + 1) ≤ n
    · rw [if_pos hc]
      rcases Nat.lt_or_ge d (f + 1) with hd | hd
      · exfalso
        have hle : d + 1 ≤ f + 1 := hd
        have hmul := Nat.mul_le_mul hle hle
        omega
      · omega
    · rw [if_neg hc]
      rcases Nat.eq_or_lt_of_le h1 with he | hl
      · exfalso; rw [he] at h2; exact hc h2
      · exact ih (by omega)

/-- The integer root recovers the side of a perfect square. -/
lemma introot_mul_self (d : Nat) : introot (d * d) = d := by
  have h3 : d * d < (d + 1) * (d + 1) := by nlinarith
  have h1 : d ≤ d * d := by nlinarith
  exact introotAux_eq (d * d) d (Nat.le_refl _) h3 (d * d) h1

/-- Reading the low digit of a two-digit base-d decomposition. -/
lemma decomp_mod (d a b : Nat) (hb : b < d) : (a * d + b) % d = b := by
  rw [Nat.add_comm, Nat.add_mul_mod_self_right, Nat.mod_eq_of_lt hb]

/-- Reading the high digit of a two-digit base-d decomposition. -/
lemma decomp_div (d a b : Nat) (hb : b < d) : (a * d + b) / d = a := by
  have hd : 0 < d := lt_of_le_of_lt (Nat.zero_le b) hb
  rw [Nat.add_comm, Nat.add_mul_div_right b a hd, Nat.div_eq_of_lt hb, Nat.zero_add]

/-- Two applications of the reshape-permute transform restore every data
entry of a d²×d² matrix: the axis permutation (3,1,2,0) is an involution. -/
lemma tofrom_tofrom_data {α : Type} (d : Nat) (q : Qobj α)
    (hsh : q.shape = (d * d, d * d)) (r c : Nat) (hr : r < d * d) (hc : c < d * d) :
    (_super_tofrom_choi (_super_tofrom_choi q)).data r c = q.data r c := by
  have hd : 0 < d := by
    rcases Nat.eq_zero_or_pos d with h0 | h0
    · subst h0; simp at hr
    · exact h0
  have hrm : r % d < d := Nat.mod_lt _ hd
  have hcm : c % d < d := Nat.mod_lt _ hd
  have hrd : r / d < d := by rw [Nat.div_lt_iff_lt_mul hd]; exact hr
  have hcd : c / d < d := by rw [Nat.div_lt_iff_lt_mul hd]; exact hc
  simp only [_super_tofrom_choi, flatten4, transpose3120, reshape4, hsh, introot_mul_self]
  rw [decomp_mod d (c % d) (r % d) hrm, decomp_div d (c % d) (r % d) hrm,
    decomp_mod d (c / d) (r / d) hrd, decomp_div d (c / d) (r / d) hrd]
  have h1 : r / d * d + r % d = r := by rw [Nat.mul_comm]; exact Nat.div_add_mod r d
  have h2 : c / d * d + c % d = c := by rw [Nat.mul_comm]; exact Nat.div_add_mod c d
  rw [h1, h2]

/-- C2 (amended): the Super⇄Choi reshape-permute transform is an involution
on the data of every d²×d² matrix, and consequently for every
super-operator X carrying the Super representation tag,
to_super(to_choi(X)) succeeds and reproduces X's matrix, dims and shape.
For a Choi-tagged super-operator the inner to_choi is the identity, so
to_super applies the transform only once and does not in general reproduce
the matrix. -/
theorem c2_super_choi_involution {α : Type} [Field α] [StarRing α] (d : Nat) (q : Qobj α)
    (hsh : q.shape = (d * d, d * d)) :
    (∀ r c, r < d * d → c < d * d →
      (_super_tofrom_choi (_super_tofrom_choi q)).data r c = q.data r c) ∧
    (q.qtype = "super" → q.superrep = "super" →
      ∃ Y, applyOpt (to_choi q) to_super = .ok (some Y) ∧
        Y.dims = q.dims ∧ Y.shape = q.shape ∧
        ∀ r c, r < d * d → c < d * d → Y.data r c = q.data r c) := by
  constructor
  · intro r c hr hc
    exact tofrom_tofrom_data d q hsh r c hr hc
  · intro hq hrep
    refine ⟨choi_to_super (super_to_choi q), ?_, rfl, rfl, ?_⟩
    · simp [to_choi, to_super, applyOpt, hq, hrep, super_to_choi, choi_to_super,
        _super_tofrom_choi]
    · intro r c hr hc
      have h := tofrom_tofrom_data d q hsh r c hr hc
      simpa [choi_to_super, super_to_choi, _super_tofrom_choi] using h

/-- A concrete Super-tagged qubit super-operator over the rationals, used
as evaluation input. -/
def qS : Qobj ℚ :=
  { qtype := "super"
    superrep := "super"
    dims := ([2], [2])
    shape := (4, 4)
    data := fun i j => (i * 4 + j : ℚ)
    isherm := none }

/-- Witness for C2: the amended statement evaluated on the concrete
Super-tagged super-operator `qS`. -/
theorem c2_witness :
    qS.shape = (2 * 2, 2 * 2) ∧ qS.qtype = "super" ∧ qS.superrep = "super" ∧
    ((∀ r c, r < 2 * 2 → c < 2 * 2 →
      (_super_tofrom_choi (_super_tofrom_choi qS)).data r c = qS.data r c) ∧
    (qS.qtype = "super" → qS.superrep = "super" →
      ∃ Y, applyOpt (to_choi qS) to_super = .ok (some Y) ∧
        Y.dims = qS.dims ∧ Y.shape = qS.shape ∧
        ∀ r c, r < 2 * 2 → c < 2 * 2 → Y.data r c = qS.data r c)) :=
  ⟨rfl, rfl, rfl, c2_super_choi_involution 2 qS rfl⟩

/-- A concrete Choi-tagged super-operator over the rationals (the
depolarizing Choi matrix at pe = 0), used as counterexample input. -/
def qC : Qobj ℚ :=
  { qtype := "super"
    superrep := "choi"
    dims := ([2, 2], [2, 2])
    shape := (4, 4)
    data := fun i j =>
      match i, j with
      | 0, 0 => 1
      | 0, 3 => 1
      | 3, 0 => 1
      | 3, 3 => 1
      | _, _ => 0
    isherm := none }

/-- Counterexample for C2 as stated: on the Choi-tagged super-operator
`qC`, to_super(to_choi(X)) succeeds but does not reproduce X's matrix —
the entry at (0, 3) changes from 1 to 0 — because the underlying transform
is applied once rather than twice. -/
theorem c2_counterexample :
    ∃ Y, applyOpt (to_choi qC) to_super = .ok (some Y) ∧ ¬ Y.data 0 3 = qC.data 0 3 := by
  refine ⟨choi_to_super qC, ?_, ?_⟩
  · rfl
  · decide

/-- A concrete ket object over the rationals (kind neither operator nor
super-operator), used as failing input. -/
def qKet : Qobj ℚ :=
  { qtype := "ket"
    superrep := "super"
    dims := ([2], [1])
    shape := (2, 1)
    data := fun _ _ => 1
    isherm := none }

/-- A concrete super-operator over the rationals with the unrecognized
representation tag `chi`, used as failing input. -/
def qBadRep : Qobj ℚ :=
  { qtype := "super"
    superrep := "chi"
    dims := ([2, 2], [2, 2])
    shape := (4, 4)
    data := fun _ _ => 0
    isherm := none }

/-- C3 (behaviour at the failing inputs, for every Kraus extraction f): on
a super-operator with an unrecognized representation tag, to_super and
to_kraus return None instead of raising; on a kind that is neither
operator nor super-operator, to_choi raises an AttributeError (via the
nonexistent-attribute format field) instead of a TypeError naming the
pair; and on the unrecognized tag, to_choi raises a TypeError carrying
only the tag, not the kind/representation pair. -/
theorem c3_dispatch_error_slips (f : Qobj ℚ → List (Qobj ℚ)) :
    to_super qBadRep = .ok none ∧
    to_kraus f qBadRep = .ok none ∧
    to_choi qKet = .error (.attributeError "choi") ∧
    to_choi qBadRep = .error (.typeError "chi") := by
  exact ⟨rfl, rfl, rfl, rfl⟩

/-- C8: to_choi and to_super are idempotent on every super-operator (whose
representation tag is, per the data model, Super or Choi): an object
already in the requested representation is returned unchanged, so applying
the dispatch a second time returns exactly the result of the first
application. -/
theorem c8_dispatch_idempotent {α : Type} [Field α] [StarRing α] (q : Qobj α)
    (hq : q.qtype = "super") (hrep : q.superrep = "super" ∨ q.superrep = "choi") :
    applyOpt (to_choi q) to_choi = to_choi q ∧
    applyOpt (to_super q) to_super = to_super q := by
  rcases hrep with h | h <;>
    constructor <;>
      simp [to_choi, to_super, applyOpt, super_to_choi, choi_to_super, _super_tofrom_choi,
        hq, h]

/-- Witness for C8: idempotence evaluated on the concrete Super-tagged
super-operator `qS`. -/
theorem c8_witness :
    qS.qtype = "super" ∧ qS.superrep = "super" ∧
    applyOpt (to_choi qS) to_choi = to_choi qS ∧
    applyOpt (to_super qS) to_super = to_super qS :=
  ⟨rfl, rfl, c8_dispatch_idempotent qS rfl (Or.inl rfl)⟩

/-- Factor-wise concatenation of dims lists, in call order. -/
def concatDims : List (List Nat) → List Nat
  | [] => []
  | l :: t => l ++ concatDims t

/-- The shape of an iterated Kronecker product, left to right. -/
def iterShape {α : Type} (sh : Nat × Nat) : List (Qobj α) → Nat × Nat
  | [] => sh
  | q :: t => iterShape (sh.1 * q.shape.1, sh.2 * q.shape.2) t

/-- The iterated Kronecker product of the operand data, taken left to
right, starting from a matrix of the given shape. -/
def iterKronData {α : Type} [Field α] (sh : Nat × Nat) (A : Nat → Nat → α) :
    List (Qobj α) → Nat → Nat → α
  | [] => A
  | q :: t => iterKronData (sh.1 * q.shape.1, sh.2 * q.shape.2) (kronData A q.shape q.data) t

/-- Field-by-field description of the accumulation loop of `tensor`. -/
lemma foldl_tensorStep_fields {α : Type} [Field α] (rest : List (Qobj α)) :
    ∀ start : Qobj α,
      (rest.foldl tensorStep start).qtype = start.qtype ∧
      (rest.foldl tensorStep start).superrep = start.superrep ∧
      (rest.foldl tensorStep start).dims.1
        = start.dims.1 ++ concatDims (rest.map fun q => q.dims.1) ∧
      (rest.foldl tensorStep start).dims.2
        = start.dims.2 ++ concatDims (rest.map fun q => q.dims.2) ∧
      (rest.foldl tensorStep start).shape = iterShape start.shape rest ∧
      (rest.foldl tensorStep start).data = iterKronData start.shape start.data rest ∧
      (rest.foldl tensorStep start).isherm
        = (rest.map fun q => q.isherm).foldl pyAnd start.isherm := by
  induction rest with
  | nil => intro start; simp [concatDims, iterShape, iterKronData]
  | cons q t ih =>
    intro start
    obtain ⟨h1, h2, h3, h4, h5, h6, h7⟩ := ih (tensorStep start q)
    simp only [List.foldl_cons, List.map_cons]
    refine ⟨?_, ?_, ?_, ?_, ?_, ?_, ?_⟩
    · rw [h1]; rfl
    · rw [h2]; rfl
    · rw [h3]; simp [tensorStep, concatDims, List.append_assoc]
    · rw [h4]; simp [tensorStep, concatDims, List.append_assoc]
    · rw [h5]; rfl
    · rw [h6]; rfl
    · rw [h7]; rfl

/-- Python `and` on tri-state flags yields a known-true flag only from two
known-true flags. -/
lemma pyAnd_eq_some_true (a b : Option Bool) :
    pyAnd a b = some true ↔ a = some true ∧ b = some true := by
  rcases a with _ | a
  · simp [pyAnd]
  · rcases a
    · simp [pyAnd]
    · simp [pyAnd]

/-- Folding Python `and` yields a known-true flag only when the start and
every element are known true. -/
lemma foldl_pyAnd_eq_some_true (l : List (Option Bool)) :
    ∀ a, l.foldl pyAnd a = some true ↔ a = some true ∧ ∀ x ∈ l, x = some true := by
  induction l with
  | nil => intro a; simp
  | cons b t ih =>
    intro a
    rw [List.foldl_cons, ih (pyAnd a b), pyAnd_eq_some_true]
    simp only [List.mem_cons]
    constructor
    · rintro ⟨⟨ha, hb⟩, ht⟩
      refine ⟨ha, ?_⟩
      rintro x (rfl | hx)
      · exact hb
      · exact ht x hx
    · rintro ⟨ha, h⟩
      exact ⟨⟨ha, h b (Or.inl rfl)⟩, fun x hx => h x (Or.inr hx)⟩

/-- Python `not` is true on any flag other than known-true. -/
lemma pyNot_eq_true_of_ne (a : Option Bool) (h : ¬ a = some true) : pyNot a = true := by
  rcases a with _ | b
  · rfl
  · rcases b
    · rfl
    · exact absurd rfl h

/-- C4 (amended): for every tensor call with two or more operands that
returns a result, the result's hermiticity flag is known-true exactly when
every operand flag is known-true; in every other case — some operand flag
false or unknown — the final `if not out.isherm` reset leaves the flag
unknown, not false. -/
theorem c4_tensor_isherm {α : Type} [Field α] (qlist : List (Qobj α)) (out : Qobj α)
    (hlen : 2 ≤ qlist.length) (h : tensor qlist = .ok out) :
    out.isherm = if qlist.all (fun q => q.isherm == some true) then some true else none := by
  rcases qlist with _ | ⟨q0, rest⟩
  · simp at hlen
  · simp only [tensor] at h
    split at h
    · exact absurd h (by simp)
    · rw [Except.ok.injEq] at h
      subst h
      set start : Qobj α :=
        { qtype := q0.qtype
          superrep := q0.superrep
          dims := q0.dims
          shape := q0.shape
          data := q0.data
          isherm := pyAnd (some true) q0.isherm } with hstart
      have hff := (foldl_tensorStep_fields rest start).2.2.2.2.2.2
      have hstartish : start.isherm = q0.isherm := by
        rw [hstart]
        rcases q0.isherm with _ | b
        · rfl
        · rcases b <;> rfl
      rw [hstartish] at hff
      by_cases hacc : (rest.foldl tensorStep start).isherm = some true
      · have hchar := (foldl_pyAnd_eq_some_true (rest.map fun q => q.isherm) q0.isherm).mp
          (hff ▸ hacc)
        have hcond : ((q0 :: rest).all fun q => q.isherm == some true) = true := by
          simp only [List.all_eq_true, beq_iff_eq, List.mem_cons]
          rintro x (rfl | hx)
          · exact hchar.1
          · exact hchar.2 x.isherm (List.mem_map_of_mem _ hx)
        rw [if_pos hcond]
        have hnot : pyNot (rest.foldl tensorStep start).isherm = false := by
          rw [hacc]; rfl
        rw [hnot]
        simpa using hacc
      · have hnot : pyNot (rest.foldl tensorStep start).isherm = true :=
          pyNot_eq_true_of_ne _ hacc
        have hcond : ¬ (((q0 :: rest).all fun q => q.isherm == some true) = true) := by
          intro hcon
          apply hacc
          rw [hff]
          apply (foldl_pyAnd_eq_some_true (rest.map fun q => q.isherm) q0.isherm).mpr
          simp only [List.all_eq_true, beq_iff_eq, List.mem_cons] at hcon
          constructor
          · exact hcon q0 (Or.inl rfl)
          · intro x hx
            rcases List.mem_map.mp hx with ⟨q, hq, rfl⟩
            exact hcon q (Or.inr hq)
        rw [if_neg hcond, if_pos hnot]

/-- A concrete one-qubit operator over the rationals with known-true
hermiticity flag. -/
def qA : Qobj ℚ :=
  { qtype := "oper"
    superrep := "super"
    dims := ([2], [2])
    shape := (2, 2)
    data := eye
    isherm := some true }

/-- A concrete one-qubit operator over the rationals with known-false
hermiticity flag. -/
def qB : Qobj ℚ :=
  { qtype := "oper"
    superrep := "super"
    dims := ([2], [2])
    shape := (2, 2)
    data := fun _ _ => 1
    isherm := some false }

/-- A concrete qutrit operator over the rationals with known-true
hermiticity flag. -/
def qB3 : Qobj ℚ :=
  { qtype := "oper"
    superrep := "super"
    dims := ([3], [3])
    shape := (3, 3)
    data := eye
    isherm := some true }

/-- Witness for C4: the amended flag law evaluated on the two-operand call
`tensor [qA, qA]` (all flags known true). -/
theorem c4_witness :
    2 ≤ ([qA, qA] : List (Qobj ℚ)).length ∧
    ∃ out, tensor [qA, qA] = Except.ok out ∧
      out.isherm
        = if ([qA, qA] : List (Qobj ℚ)).all (fun q => q.isherm == some true) then some true
          else none := by
  refine ⟨by simp, _, rfl, ?_⟩
  exact c4_tensor_isherm [qA, qA] _ (by simp) rfl

/-- Counterexample for C4 as stated: tensoring an operand with known-true
flag and an operand with known-false flag (no unknowns) returns a result
whose flag is unknown, not false — the final reset turns the folded false
flag into unknown. -/
theorem c4_counterexample :
    ∃ out, tensor [qA, qB] = Except.ok out ∧ out.isherm = none ∧ ¬ out.isherm = some false := by
  refine ⟨_, rfl, rfl, by decide⟩

/-- C5 (amended): if the first operand of tensor is a super-operator and
the operands do not all carry its representation tag, the call fails with
the mixed-representation TypeError; and super_tensor on a Super-tagged and
a Choi-tagged super-operator fails with its representation TypeError.
When the first operand is not a super-operator, tensor performs no
representation check at all (see the counterexample). -/
theorem c5_rep_mismatch {α : Type} [Field α] (q0 : Qobj α) (rest : List (Qobj α))
    (hq : q0.qtype = "super")
    (hmis : ((q0 :: rest).all fun q => q.superrep == q0.superrep) = false) :
    tensor (q0 :: rest)
      = .error (.typeError
          "In tensor products of superroperators, all musthave the same representation") ∧
    ∀ {β : Type} [Field β] [StarRing β] (reshuffle : Qobj β → Qobj β) (s1 s2 : Qobj β),
      s1.qtype = "super" → s2.qtype = "super" →
      s1.superrep = "super" → s2.superrep = "choi" →
      super_tensor reshuffle [s1, s2]
        = .error (.typeError "super_tensor on type=super is only implemented for superrep=super") := by
  constructor
  · simp [tensor, Qobj.issuper, hq, hmis]
  · intro β _ _ reshuffle s1 s2 h1 h2 h3 h4
    simp [super_tensor, Qobj.issuper, h1, h2, h3, h4]

/-- Witness for C5: the amended statement evaluated on the Super-tagged
`qS` followed by the Choi-tagged `qC`. -/
theorem c5_witness :
    qS.qtype = "super" ∧
    (([qS, qC] : List (Qobj ℚ)).all fun q => q.superrep == qS.superrep) = false ∧
    tensor [qS, qC]
      = Except.error (PyErr.typeError
          "In tensor products of superroperators, all musthave the same representation") ∧
    super_tensor (fun q => q) [qS, qC]
      = Except.error (PyErr.typeError
          "super_tensor on type=super is only implemented for superrep=super") := by
  have h := c5_rep_mismatch qS [qC] rfl rfl
  exact ⟨rfl, rfl, h.1, h.2 (fun q => q) qS qC rfl rfl rfl rfl⟩

/-- Counterexample for C5 as stated: with the plain operator `qA` in the
first position followed by two super-operators with different
representation tags, tensor raises nothing and returns a result — the
representation check only runs when the first operand is a super-operator. -/
theorem c5_counterexample :
    ∃ out, tensor [qA, qS, qC] = Except.ok out := by
  exact ⟨_, rfl⟩

/-- C6: calling tensor with zero operands fails with the dedicated
zero-operand error, whose message is distinct from every
kind/representation (TypeKind) message raised by the composition
functions. -/
theorem c6_empty_tensor_rejected {α : Type} [Field α] :
    tensor ([] : List (Qobj α))
      = Except.error (PyErr.typeError "Requires at least one input argument") ∧
    "Requires at least one input argument"
      ≠ "In tensor products of superroperators, all musthave the same representation" ∧
    "Requires at least one input argument"
      ≠ "super_tensor on type=super is only implemented for superrep=super" ∧
    "Requires at least one input argument"
      ≠ "All arguments must be the same type, either super, operator-ket or operator-bra" ∧
    "Requires at least one input argument" ≠ "Unsupported Qobj types" := by
  exact ⟨rfl, by decide, by decide, by decide, by decide⟩

/-- C7: every successful tensor call on two or more operands yields the
iterated left-to-right Kronecker product of the operand data, the product
shape, and dims made by concatenating the operands' first and second
dims-lists factor-wise in call order. -/
theorem c7_tensor_kron_dims {α : Type} [Field α] (q0 : Qobj α) (rest : List (Qobj α))
    (out : Qobj α) (_hne : rest ≠ []) (h : tensor (q0 :: rest) = .ok out) :
    out.data = iterKronData q0.shape q0.data rest ∧
    out.shape = iterShape q0.shape rest ∧
    out.dims.1 = concatDims ((q0 :: rest).map fun q => q.dims.1) ∧
    out.dims.2 = concatDims ((q0 :: rest).map fun q => q.dims.2) := by
  simp only [tensor] at h
  split at h
  · exact absurd h (by simp)
  · rw [Except.ok.injEq] at h
    subst h
    set start : Qobj α :=
      { qtype := q0.qtype
        superrep := q0.superrep
        dims := q0.dims
        shape := q0.shape
        data := q0.data
        isherm := pyAnd (some true) q0.isherm } with hstart
    obtain ⟨-, -, h3, h4, h5, h6, -⟩ := foldl_tensorStep_fields rest start
    have hsame :
        (if pyNot (rest.foldl tensorStep start).isherm then
            { rest.foldl tensorStep start with isherm := none }
          else rest.foldl tensorStep start).data = (rest.foldl tensorStep start).data ∧
        (if pyNot (rest.foldl tensorStep start).isherm then
            { rest.foldl tensorStep start with isherm := none }
          else rest.foldl tensorStep start).shape = (rest.foldl tensorStep start).shape ∧
        (if pyNot (rest.foldl tensorStep start).isherm then
            { rest.foldl tensorStep start with isherm := none }
          else rest.foldl tensorStep start).dims = (rest.foldl tensorStep start).dims := by
      split <;> exact ⟨rfl, rfl, rfl⟩
    refine ⟨?_, ?_, ?_, ?_⟩
    · rw [hsame.1, h6]
    · rw [hsame.2.1, h5]
    · rw [hsame.2.2, h3]; rfl
    · rw [hsame.2.2, h4]; rfl

/-- Witness for C7: the Kronecker/dims law evaluated on the one-qubit and
one-qutrit operators, giving dims ([2,3], [2,3]). -/
theorem c7_witness :
    ([qB3] : List (Qobj ℚ)) ≠ [] ∧
    ∃ out, tensor [qA, qB3] = Except.ok out ∧
      out.data = iterKronData qA.shape qA.data [qB3] ∧
      out.shape = iterShape qA.shape [qB3] ∧
      out.dims.1 = concatDims ([qA, qB3].map fun q => q.dims.1) ∧
      out.dims.2 = concatDims ([qA, qB3].map fun q => q.dims.2) ∧
      out.dims = ([2, 3], [2, 3]) := by
  constructor
  · simp
  · refine ⟨_, rfl, ?_⟩
    have h := c7_tensor_kron_dims qA [qB3] _ (by simp) rfl
    exact ⟨h.1, h.2.1, h.2.2.1, h.2.2.2, rfl⟩

/-- C10: super_tensor called with zero arguments fails with an IndexError
from unconditionally indexing the first argument — a different exception
class from every TypeError — and in particular not with tensor's dedicated
zero-operand error. -/
theorem c10_super_tensor_empty {α : Type} [Field α] [StarRing α]
    (reshuffle : Qobj α → Qobj α) :
    super_tensor reshuffle ([] : List (Qobj α))
      = Except.error (PyErr.indexError "tuple index out of range") ∧
    (∀ m, PyErr.indexError "tuple index out of range" ≠ PyErr.typeError m) ∧
    super_tensor reshuffle ([] : List (Qobj α)) ≠ tensor ([] : List (Qobj α)) := by
  refine ⟨rfl, fun m h => PyErr.noConfusion h, ?_⟩
  intro h
  rw [show super_tensor reshuffle ([] : List (Qobj α))
      = Except.error (PyErr.indexError "tuple index out of range") from rfl,
    show tensor ([] : List (Qobj α))
      = Except.error (PyErr.typeError "Requires at least one input argument") from rfl] at h
  rw [Except.error.injEq] at h
  exact PyErr.noConfusion h

/-- C9 (amended): composite on a plain operator U and a super-operator S in
the Super representation promotes every operand via to_super — a no-op on
S — and delegates to super_tensor, so it equals super_tensor applied to
the promotion of U and to S itself, for every reshuffle primitive.  For a
Choi-tagged S the two sides differ: composite promotes S to Super form and
succeeds while the direct super_tensor call rejects the Choi tag (see the
counterexample). -/
theorem c9_composite_promotes {α : Type} [Field α] [StarRing α]
    (reshuffle : Qobj α → Qobj α) (U S : Qobj α)
    (hU : U.qtype = "oper") (hS : S.qtype = "super") (hrep : S.superrep = "super") :
    promoteSuper S = .ok S ∧
    composite reshuffle [U, S]
      = Except.bind (promoteSuper U) (fun V => super_tensor reshuffle [V, S]) := by
  have hpS : promoteSuper S = .ok S := by
    simp [promoteSuper, to_super, hS, hrep]
  have hpU : promoteSuper U = .ok (qmul (spre U) (spost U.dag)) := by
    simp [promoteSuper, to_super, hU]
  refine ⟨hpS, ?_⟩
  rw [hpU]
  show composite reshuffle [U, S]
      = super_tensor reshuffle [qmul (spre U) (spost U.dag), S]
  have hmm : List.mapM promoteSuper [U, S]
      = Except.ok [qmul (spre U) (spost U.dag), S] := by
    rw [List.mapM_cons, List.mapM_cons, List.mapM_nil, hpU, hpS]
    rfl
  have hmm2 : List.mapM.loop promoteSuper [U, S] ([] : List (Qobj α))
      = Except.ok [qmul (spre U) (spost U.dag), S] := hmm
  simp [composite, composite_core, _isoperlike, _isketlike, _isbralike, Qobj.isoper,
    Qobj.issuper, Qobj.isket, Qobj.isoperket, Qobj.isbra, Qobj.isoperbra, hU, hS, hmm2]

/-- Witness for C9: the amended promotion law evaluated on the concrete
operator `qA` and Super-tagged super-operator `qS`, with the identity as
the external reshuffle. -/
theorem c9_witness :
    qA.qtype = "oper" ∧ qS.qtype = "super" ∧ qS.superrep = "super" ∧
    promoteSuper qS = Except.ok qS ∧
    composite (fun q => q) [qA, qS]
      = Except.bind (promoteSuper qA) (fun V => super_tensor (fun q => q) [V, qS]) := by
  have h := c9_composite_promotes (fun q => q) qA qS rfl rfl rfl
  exact ⟨rfl, rfl, rfl, h.1, h.2⟩

/-- Counterexample for C9 as stated: with the Choi-tagged super-operator
`qC`, composite succeeds (it first converts qC to Super form) while
super_tensor applied to the promoted operator and qC itself raises the
representation TypeError, so the two are not equal. -/
theorem c9_counterexample :
    (∃ out, composite (fun q => q) [qA, qC] = Except.ok out) ∧
    Except.bind (promoteSuper qA) (fun V => super_tensor (fun q => q) [V, qC])
      = Except.error (PyErr.typeError
          "super_tensor on type=super is only implemented for superrep=super") := by
  exact ⟨⟨_, rfl⟩, rfl⟩
